import Mathlib

/-!
Verification of the real-time container log streaming engine
(`pkg/microservice/aslan/core/log/service/sse.go`).

Go strings are modelled as `List Char` where character-level operations
(splitting, trimming) matter, and as Lean `String` where they are treated
as opaque identifiers.  Go standard-library string helpers used by the
source (`strings.Split`, `strings.TrimSpace`, `strings.TrimRight`,
`strings.TrimPrefix`) are embedded below with their documented semantics.
-/

/-- Model of Go `strings.Split(s, sep)` for a single-character separator:
splits around each occurrence of `sep`; the result always has
`count sep + 1` segments, in particular `Split("", sep) = [""]`. -/
def splitOnChar (sep : Char) : List Char → List (List Char)
  | [] => [[]]
  | c :: rest =>
    match splitOnChar sep rest with
    | [] => [[]]
    | s :: ss => if c = sep then [] :: s :: ss else (c :: s) :: ss

/-- ASCII model of `unicode.IsSpace`, the character class used by
Go `strings.TrimSpace`. -/
def isSpace (c : Char) : Bool :=
  c = ' ' || c = '\t' || c = '\n' || c = '\x0b' || c = '\x0c' || c = '\r'

/-- Trailing-whitespace trim (right half of Go `strings.TrimSpace`). -/
def trimRightSpace (l : List Char) : List Char :=
  (l.reverse.dropWhile isSpace).reverse

/-- Model of Go `strings.TrimSpace`: removes leading and trailing
whitespace characters. -/
def trimSpace (l : List Char) : List Char :=
  (trimRightSpace l).dropWhile isSpace

/-- Model of Go `strings.TrimRight(s, cutset)`: removes trailing
characters that are members of `cutset` (a character set, not a suffix). -/
def trimRight (l cutset : List Char) : List Char :=
  (l.reverse.dropWhile (fun c => cutset.contains c)).reverse

/-- Model of Go `strings.TrimPrefix(s, pre)`: removes `pre` from the
front of `s` when `s` starts with it, otherwise returns `s` unchanged. -/
def trimPrefixList (l pre : List Char) : List Char :=
  if l.take pre.length = pre then l.drop pre.length else l

/-- Embedding of `parseServiceName` (sse.go:123-140).  Returns
`(serviceName, serviceModule)`, in the source's return order.  When a
service module is passed it strips the `module_` prefix; otherwise it
splits the full name on the underscore and dispatches on the number of
segments. -/
def parseServiceName (fullServiceName serviceModule : List Char) : List Char × List Char :=
  if 0 < serviceModule.length then
    (trimPrefixList fullServiceName (serviceModule ++ ['_']), serviceModule)
  else
    match splitOnChar '_' fullServiceName with
    | [m] => ([], m)
    | [m, s] => (s, m)
    | _ => ([], [])

/-- Embedding of `getTestName` (sse.go:299-302): the source calls
`strings.TrimRight(serviceName, "-job")`, which strips trailing
characters drawn from the cutset `{'-','j','o','b'}`. -/
def getTestName (serviceName : List Char) : List Char :=
  trimRight serviceName ('-' :: 'j' :: 'o' :: 'b' :: [])

theorem splitOnChar_ne_nil (sep : Char) (l : List Char) : splitOnChar sep l ≠ [] := by
  cases l with
  | nil => simp [splitOnChar]
  | cons c rest =>
    simp only [splitOnChar]
    cases h : splitOnChar sep rest with
    | nil => simp
    | cons s ss =>
      by_cases hc : c = sep <;> simp [hc]

theorem length_splitOnChar (sep : Char) (l : List Char) :
    (splitOnChar sep l).length = l.count sep + 1 := by
  induction l with
  | nil => simp [splitOnChar]
  | cons c rest ih =>
    simp only [splitOnChar]
    cases h : splitOnChar sep rest with
    | nil => exact absurd h (splitOnChar_ne_nil sep rest)
    | cons s ss =>
      rw [h] at ih
      simp only [List.length_cons] at ih
      by_cases hc : c = sep
      · subst hc
        show (if c = c then [] :: s :: ss else (c :: s) :: ss).length
          = List.count c (c :: rest) + 1
        rw [if_pos rfl, List.count_cons_self]
        simp only [List.length_cons]
        omega
      · show (if c = sep then [] :: s :: ss else (c :: s) :: ss).length
          = List.count sep (c :: rest) + 1
        rw [if_neg hc, List.count_cons_of_ne (Ne.symm hc)]
        simp only [List.length_cons]
        omega

theorem splitOnChar_no_sep (sep : Char) (l : List Char) (h : sep ∉ l) :
    splitOnChar sep l = [l] := by
  induction l with
  | nil => simp [splitOnChar]
  | cons c rest ih =>
    have hc : c ≠ sep := fun he => h (he ▸ List.mem_cons_self c rest)
    have hr : sep ∉ rest := fun hm => h (List.mem_cons_of_mem c hm)
    simp only [splitOnChar, ih hr]
    simp [hc]

theorem splitOnChar_append_sep (sep : Char) (a b : List Char) (h : sep ∉ a) :
    splitOnChar sep (a ++ sep :: b) = a :: splitOnChar sep b := by
  induction a with
  | nil =>
    simp only [List.nil_append, splitOnChar]
    cases hb : splitOnChar sep b with
    | nil => exact absurd hb (splitOnChar_ne_nil sep b)
    | cons s ss => simp
  | cons c a' ih =>
    have hc : c ≠ sep := fun he => h (he ▸ List.mem_cons_self c a')
    have ha : sep ∉ a' := fun hm => h (List.mem_cons_of_mem c hm)
    simp only [List.cons_append, splitOnChar]
    cases hs : splitOnChar sep (a' ++ sep :: b) with
    | nil => exact absurd hs (splitOnChar_ne_nil sep (a' ++ sep :: b))
    | cons s ss =>
      rw [ih ha] at hs
      injection hs with h1 h2
      subst h1
      subst h2
      show (if c = sep then [] :: a' :: splitOnChar sep b else (c :: a') :: splitOnChar sep b)
        = (c :: a') :: splitOnChar sep b
      rw [if_neg hc]

/-- Claim C6: with no explicit module, `parseServiceName` dispatches on the
number of underscore-separated segments of the composite identifier:
one segment yields (empty service name, that segment as module); two
segments yield (second as service name, first as module); any other
segment count yields two empty strings.  The function is total and pure. -/
theorem claim_C6 (full1 full2 full3 m m2 s2 : List Char)
    (h1 : splitOnChar '_' full1 = [m])
    (h2 : splitOnChar '_' full2 = [m2, s2])
    (h3 : 2 < (splitOnChar '_' full3).length) :
    parseServiceName full1 [] = ([], m)
      ∧ parseServiceName full2 [] = (s2, m2)
      ∧ parseServiceName full3 [] = ([], []) := by
  refine ⟨?_, ?_, ?_⟩
  · simp [parseServiceName, h1]
  · simp [parseServiceName, h2]
  · simp only [parseServiceName, List.length_nil, Nat.lt_irrefl, if_false]
    cases h : splitOnChar '_' full3 with
    | nil => exact absurd h (splitOnChar_ne_nil '_' full3)
    | cons x xs =>
      cases xs with
      | nil => rw [h] at h3; simp at h3
      | cons y ys =>
        cases ys with
        | nil => rw [h] at h3; simp at h3
        | cons z zs => rfl

/-- Witness for C6 at concrete inputs covering all three cases. -/
theorem claim_C6_witness :
    parseServiceName "abc".data [] = ([], "abc".data)
      ∧ parseServiceName "a_b".data [] = ("b".data, "a".data)
      ∧ parseServiceName "a_b_c".data [] = ([], []) :=
  claim_C6 "abc".data "a_b".data "a_b_c".data "abc".data "a".data "b".data
    (by decide) (by decide) (by decide)

/-- Counterexample to claim C7: the identifier "abc" has zero underscores,
yet the resolver returns it as the module instead of two empty strings. -/
theorem claim_C7_counterexample :
    ("abc".data.count '_' = 0)
      ∧ parseServiceName "abc".data [] ≠ ([], []) := by
  constructor
  · decide
  · intro h
    have := congrArg Prod.snd h
    simp [parseServiceName, splitOnChar] at this

/-- Claim C7 (amended): with no explicit module, an identifier with exactly
one underscore `A_B` resolves to module `A` and service name `B`; an
identifier with zero underscores resolves to itself as the module with an
empty service name (not two empty strings); an identifier with more than
one underscore resolves to two empty strings.  The function is total. -/
theorem claim_C7_amended (a b zfull mfull : List Char)
    (ha : '_' ∉ a) (hb : '_' ∉ b) (hz : '_' ∉ zfull)
    (hm : 2 ≤ mfull.count '_') :
    parseServiceName (a ++ '_' :: b) [] = (b, a)
      ∧ parseServiceName zfull [] = ([], zfull)
      ∧ parseServiceName mfull [] = ([], []) := by
  refine ⟨?_, ?_, ?_⟩
  · have hsplit : splitOnChar '_' (a ++ '_' :: b) = [a, b] := by
      rw [splitOnChar_append_sep '_' a b ha, splitOnChar_no_sep '_' b hb]
    simp [parseServiceName, hsplit]
  · simp [parseServiceName, splitOnChar_no_sep '_' zfull hz]
  · have hlen : 2 < (splitOnChar '_' mfull).length := by
      rw [length_splitOnChar]; omega
    simp only [parseServiceName, List.length_nil, Nat.lt_irrefl, if_false]
    cases h : splitOnChar '_' mfull with
    | nil => exact absurd h (splitOnChar_ne_nil '_' mfull)
    | cons x xs =>
      cases xs with
      | nil => rw [h] at hlen; simp at hlen
      | cons y ys =>
        cases ys with
        | nil => rw [h] at hlen; simp at hlen
        | cons z zs => rfl

/-- Witness for the amended C7 at concrete inputs covering all cases. -/
theorem claim_C7_amended_witness :
    parseServiceName "A_B".data [] = ("B".data, "A".data)
      ∧ parseServiceName "abc".data [] = ([], "abc".data)
      ∧ parseServiceName "a_b_c".data [] = ([], []) := by
  have h := claim_C7_amended "A".data "B".data "abc".data "a_b_c".data
    (by decide) (by decide) (by decide) (by decide)
  exact h

/-- Claim C8: evaluation of the code at a failing input.  The source's
`strings.TrimRight(serviceName, "-job")` treats "-job" as a character
cutset, so for the service name "testb-job" it produces "test", whereas
trimming the four-character "-job" suffix (the documented intent) would
produce "testb". -/
theorem claim_C8_code_eval :
    getTestName "testb-job".data = "test".data
      ∧ getTestName "testb-job".data ≠ "testb".data := by
  constructor
  · rfl
  · decide

/-!
Log Streamer (`containerLogStream`, sse.go:78-121).

The readable byte stream handed back by `containerlog.GetContainerLogStream`
is modelled as a finite character list `content` together with a flag
`cleanEOF`: once the content is exhausted the next read reports `io.EOF`
when `cleanEOF` is true and some other read error otherwise.
`bufio.Reader.ReadString('\n')` returns each newline-terminated chunk with
`err == nil`, and the final unterminated chunk together with the terminal
error; `splitLines` precomputes exactly this decomposition.

The caller's context is modelled by `doneAt : Nat → Bool`, sampled once
per loop iteration exactly where the source's `select` consults
`ctx.Done()` before falling through to the next read.
-/

/-- Decomposition performed by repeated `bufio.Reader.ReadString('\n')`
calls: the newline-terminated chunks (each including its trailing
newline), and the final unterminated partial chunk. -/
def splitLines : List Char → List (List Char) × List Char
  | [] => ([], [])
  | c :: rest =>
    let r := splitLines rest
    if c = '\n' then (['\n'] :: r.1, r.2)
    else
      match r.1 with
      | [] => ([], c :: r.2)
      | l :: ls => ((c :: l) :: ls, r.2)

/-- Observable per-iteration actions of the streaming loop: a read from
the log handle, or a push of a (trimmed) line to the sink channel. -/
inductive LoopEvent
  | read : List Char → LoopEvent
  | push : List Char → LoopEvent
deriving DecidableEq

/-- How a streaming session ended. -/
inductive StreamExit
  | openError
  | cancelled
  | eof
  | readError
deriving DecidableEq

/-- Embedding of the `for { select { ... } }` loop of `containerLogStream`
(sse.go:95-120).  Each iteration `i` first consults the context
(`case <-ctx.Done(): return`); otherwise the `default` branch performs
the next `ReadString('\n')`.  A newline-terminated line is trimmed and
pushed unconditionally; at end of input a clean `io.EOF` pushes the
trimmed final partial line only when it is non-empty, while any other
read error returns without pushing.  Returns the trace of iteration-tagged
events together with the exit taken. -/
def containerLogLoop (doneAt : Nat → Bool) (cleanEOF : Bool) (i : Nat)
    (lines : List (List Char)) (part : List Char) :
    List (Nat × LoopEvent) × StreamExit :=
  if doneAt i then ([], .cancelled)
  else
    match lines with
    | [] =>
      if cleanEOF then
        if 0 < (trimSpace part).length then
          ([(i, .read part), (i, .push (trimSpace part))], .eof)
        else
          ([(i, .read part)], .eof)
      else
        ([(i, .read part)], .readError)
    | line :: rest =>
      let r := containerLogLoop doneAt cleanEOF (i + 1) rest part
      ((i, .read line) :: (i, .push (trimSpace line)) :: r.1, r.2)

/-- The lines pushed to the sink, extracted from a loop trace in order. -/
def pushesOf (evs : List (Nat × LoopEvent)) : List (List Char) :=
  evs.filterMap fun p =>
    match p.2 with
    | .push l => some l
    | .read _ => none

/-- Result of one streaming session: the exit taken, the lines pushed to
the sink, and how many times the read handle was closed. -/
structure StreamResult where
  exit : StreamExit
  pushes : List (List Char)
  closes : Nat
deriving DecidableEq

/-- Embedding of `containerLogStream` (sse.go:78-121).  `openResult` is
the outcome of `containerlog.GetContainerLogStream`: `none` models an
open error (the function logs and returns before registering any close),
`some (content, cleanEOF)` a successfully opened handle.  The
`defer out.Close()` registered right after the successful open runs on
every exit path of the loop, hence `closes := 1` in that branch. -/
def containerLogStream (doneAt : Nat → Bool)
    (openResult : Option (List Char × Bool)) : StreamResult :=
  match openResult with
  | none => { exit := .openError, pushes := [], closes := 0 }
  | some (content, cleanEOF) =>
    let r := containerLogLoop doneAt cleanEOF 0
      (splitLines content).1 (splitLines content).2
    { exit := r.2, pushes := pushesOf r.1, closes := 1 }

/-- The synthetic source of claim C1: the byte stream formed by the given
lines, each terminated by a newline, followed by a final unterminated
partial line. -/
def joinLines (ls : List (List Char)) (last : List Char) : List Char :=
  (ls.map (fun l => l ++ ['\n'])).flatten ++ last

/-- A context that is never done. -/
def neverDone : Nat → Bool := fun _ => false

theorem trimRightSpace_append_newline (l : List Char) :
    trimRightSpace (l ++ ['\n']) = trimRightSpace l := by
  simp only [trimRightSpace, List.reverse_append, List.reverse_cons, List.reverse_nil,
    List.nil_append, List.singleton_append, List.dropWhile_cons]
  simp [isSpace]

theorem trimSpace_append_newline (l : List Char) :
    trimSpace (l ++ ['\n']) = trimSpace l := by
  unfold trimSpace
  rw [trimRightSpace_append_newline]

theorem splitLines_no_newline (l : List Char) (h : '\n' ∉ l) :
    splitLines l = ([], l) := by
  induction l with
  | nil => rfl
  | cons c rest ih =>
    have hc : c ≠ '\n' := fun he => h (he ▸ List.mem_cons_self c rest)
    have hr : '\n' ∉ rest := fun hm => h (List.mem_cons_of_mem c hm)
    simp [splitLines, ih hr, hc]

theorem splitLines_cons_line (l rest : List Char) (h : '\n' ∉ l) :
    splitLines (l ++ '\n' :: rest)
      = ((l ++ ['\n']) :: (splitLines rest).1, (splitLines rest).2) := by
  induction l with
  | nil => simp [splitLines]
  | cons c l' ih =>
    have hc : c ≠ '\n' := fun he => h (he ▸ List.mem_cons_self c l')
    have hl : '\n' ∉ l' := fun hm => h (List.mem_cons_of_mem c hm)
    simp [splitLines, ih hl, hc]

theorem splitLines_joinLines (ls : List (List Char)) (last : List Char)
    (hls : ∀ l ∈ ls, '\n' ∉ l) (hlast : '\n' ∉ last) :
    splitLines (joinLines ls last) = (ls.map (fun l => l ++ ['\n']), last) := by
  induction ls with
  | nil => simpa [joinLines] using splitLines_no_newline last hlast
  | cons l ls ih =>
    have h1 : '\n' ∉ l := hls l (List.mem_cons_self l ls)
    have h2 : ∀ x ∈ ls, '\n' ∉ x := fun x hx => hls x (List.mem_cons_of_mem l hx)
    have hjoin : joinLines (l :: ls) last = l ++ '\n' :: joinLines ls last := by
      simp [joinLines, List.append_assoc]
    rw [hjoin, splitLines_cons_line l _ h1, ih h2]
    rfl

theorem pushesOf_loop_clean (ls : List (List Char)) (part : List Char) (i : Nat) :
    pushesOf (containerLogLoop neverDone true i (ls.map (fun l => l ++ ['\n'])) part).1
      = ls.map (fun l => trimSpace l)
          ++ (if 0 < (trimSpace part).length then [trimSpace part] else []) := by
  induction ls generalizing i with
  | nil =>
    by_cases hp : 0 < (trimSpace part).length <;>
      simp [containerLogLoop, neverDone, pushesOf, hp]
  | cons l ls ih =>
    simp only [List.map_cons]
    simp [containerLogLoop, neverDone, pushesOf, trimSpace_append_newline] at ih ⊢
    exact ih (i + 1)

theorem exit_loop_clean (lines : List (List Char)) (part : List Char) (i : Nat) :
    (containerLogLoop neverDone true i lines part).2 = StreamExit.eof := by
  induction lines generalizing i with
  | nil =>
    by_cases hp : 0 < (trimSpace part).length <;>
      simp [containerLogLoop, neverDone, hp]
  | cons l rest ih =>
    simpa [containerLogLoop, neverDone] using ih (i + 1)

/-- Claim C1: streaming a source whose bytes are the given lines, each
newline-terminated, followed by an unterminated final partial line, with a
never-done context and a clean end of input, pushes exactly one trimmed
line per newline-terminated input line, in input order, followed by the
trimmed final partial line exactly once when it is non-empty; the session
finishes cleanly. -/
theorem claim_C1 (ls : List (List Char)) (last : List Char)
    (hls : ∀ l ∈ ls, '\n' ∉ l) (hlast : '\n' ∉ last) :
    (containerLogStream neverDone (some (joinLines ls last, true))).pushes
      = ls.map (fun l => trimSpace l)
          ++ (if 0 < (trimSpace last).length then [trimSpace last] else [])
      ∧ (containerLogStream neverDone (some (joinLines ls last, true))).exit
          = StreamExit.eof := by
  constructor
  · show pushesOf (containerLogLoop neverDone true 0
        (splitLines (joinLines ls last)).1 (splitLines (joinLines ls last)).2).1 = _
    rw [splitLines_joinLines ls last hls hlast]
    exact pushesOf_loop_clean ls last 0
  · show (containerLogLoop neverDone true 0
        (splitLines (joinLines ls last)).1 (splitLines (joinLines ls last)).2).2 = _
    rw [splitLines_joinLines ls last hls hlast]
    exact exit_loop_clean _ _ 0

/-- Witness for C1: the stream "l1\nl2\nl3" (no trailing newline) yields
exactly ["l1", "l2", "l3"] in order and finishes cleanly. -/
theorem claim_C1_witness :
    (containerLogStream neverDone (some (joinLines ["l1".data, "l2".data] "l3".data, true))).pushes
        = ["l1".data, "l2".data, "l3".data]
      ∧ (containerLogStream neverDone
          (some (joinLines ["l1".data, "l2".data] "l3".data, true))).exit
        = StreamExit.eof := by
  have h := claim_C1 ["l1".data, "l2".data] "l3".data (by decide) (by decide)
  refine ⟨?_, h.2⟩
  rw [h.1]
  decide

/-- Claim C2: every read and every push performed by the streaming loop
happens at an iteration where the governing context was observed not yet
done: the per-iteration `select` gives `ctx.Done()` priority over the next
read, so once the context is done no further reads occur and nothing more
is written to the sink. -/
theorem claim_C2 (doneAt : Nat → Bool) (cleanEOF : Bool) (i : Nat)
    (lines : List (List Char)) (part : List Char) (j : Nat) (e : LoopEvent)
    (hmem : (j, e) ∈ (containerLogLoop doneAt cleanEOF i lines part).1) :
    doneAt j = false := by
  induction lines generalizing i with
  | nil =>
    by_cases hd : doneAt i
    · simp [containerLogLoop, hd] at hmem
    · have hj : j = i := by
        by_cases hc : cleanEOF <;> by_cases hp : 0 < (trimSpace part).length <;>
          simp [containerLogLoop, hd, hc, hp] at hmem <;> tauto
      rw [hj]
      simpa using hd
  | cons line rest ih =>
    by_cases hd : doneAt i
    · simp [containerLogLoop, hd] at hmem
    · simp only [containerLogLoop, hd, Bool.false_eq_true, if_false, List.mem_cons] at hmem
      rcases hmem with h1 | h2 | h3
      · rcases Prod.mk.injEq .. ▸ h1 with ⟨rfl, -⟩
        simpa using hd
      · rcases Prod.mk.injEq .. ▸ h2 with ⟨rfl, -⟩
        simpa using hd
      · exact ih (i + 1) h3

/-- A context that becomes done at iteration 2 and stays done. -/
def doneAfterTwo : Nat → Bool := fun n => decide (2 ≤ n)

/-- Witness for C2: in a concrete run under a context done from iteration
2 on, the push of "a" happens at iteration 0, and the claim yields that
the context was not done there. -/
theorem claim_C2_witness :
    ((0, LoopEvent.push "a".data)
        ∈ (containerLogLoop doneAfterTwo true 0 ["a\n".data] "b".data).1)
      ∧ doneAfterTwo 0 = false := by
  refine ⟨by decide, ?_⟩
  exact claim_C2 doneAfterTwo true 0 ["a\n".data] "b".data 0
    (LoopEvent.push "a".data) (by decide)

theorem exit_loop_cases (doneAt : Nat → Bool) (cleanEOF : Bool) (i : Nat)
    (lines : List (List Char)) (part : List Char) :
    (containerLogLoop doneAt cleanEOF i lines part).2 = StreamExit.cancelled
      ∨ (containerLogLoop doneAt cleanEOF i lines part).2 = StreamExit.eof
      ∨ (containerLogLoop doneAt cleanEOF i lines part).2 = StreamExit.readError := by
  induction lines generalizing i with
  | nil =>
    by_cases hd : doneAt i <;> by_cases hc : cleanEOF <;>
      by_cases hp : 0 < (trimSpace part).length <;>
        simp [containerLogLoop, hd, hc, hp]
  | cons line rest ih =>
    by_cases hd : doneAt i
    · simp [containerLogLoop, hd]
    · simpa [containerLogLoop, hd] using ih (i + 1)

/-- Claim C3: in every session whose log read handle opened successfully,
the handle is closed exactly once, whichever exit the loop takes (the
possible exits being cancellation, clean end of input, or a read error);
when the open itself failed no handle exists and none is closed. -/
theorem claim_C3 (doneAt : Nat → Bool) (content : List Char) (cleanEOF : Bool) :
    (containerLogStream doneAt (some (content, cleanEOF))).closes = 1
      ∧ ((containerLogStream doneAt (some (content, cleanEOF))).exit = StreamExit.cancelled
          ∨ (containerLogStream doneAt (some (content, cleanEOF))).exit = StreamExit.eof
          ∨ (containerLogStream doneAt (some (content, cleanEOF))).exit = StreamExit.readError)
      ∧ (containerLogStream doneAt none).closes = 0 := by
  refine ⟨rfl, ?_, rfl⟩
  exact exit_loop_cases doneAt cleanEOF 0 (splitLines content).1 (splitLines content).2

/-!
Job-Context Resolvers, Pod Locator and entry points
(sse.go:43-62, 142-302, 304-360).

Collaborators that live outside the shown source (the mongodb
repositories, the cluster client factory, `watcher.WaitUntilPodRunning`,
`getter.ListPods`, `label.GetJobLabels`) are modelled at their interface
boundary as function-typed parameters, per the spec's §6.  External
constants from the `config`/`setting` packages are kept abstract in `Env`.
-/

/-- Modelled from the spec: the external constants of the `config` and
`setting` packages consumed by sse.go (local cluster id, default
configured namespace, fixed attached-cluster namespace, task-type and
job-type names, selector label keys).  Their concrete values live outside
`src/`; every theorem quantifies over them. -/
structure Env where
  LocalClusterID : String
  NamespaceDefault : String
  AttachedClusterNamespace : String
  ServiceType : String
  TaskBuild : String
  TaskTestingV2 : String
  JobZadigBuild : String
  JobFreestyle : String
  JobZadigTesting : String
  JobZadigScanning : String
  JobZadigDistributeImage : String
  JobBuild : String
  JobPlugin : String
  JobLabelSTypeKey : String
  JobLabelNameKey : String
deriving DecidableEq

/-- Embedding of `GetContainerOptions` (sse.go:47-62).  Note that the
type carries no follow flag. -/
structure GetContainerOptions where
  Namespace : String
  PipelineName : String
  SubTask : String
  JobName : String
  JobType : String
  TailLines : Int
  TaskID : Int
  PipelineType : String
  ServiceName : String
  ServiceModule : String
  TestName : String
  EnvName : String
  ProductName : String
  ClusterID : String
deriving DecidableEq

/-- Namespace switch of the build-log branch of `TaskContainerLogStream`
(sse.go:188-193): switch on `build.PreBuild.ClusterID`. -/
def taskBuildNamespace (env : Env) (clusterID : String) : String :=
  if clusterID = env.LocalClusterID then env.NamespaceDefault
  else env.AttachedClusterNamespace

/-- Cluster-id defaulting of `WorkflowTaskV4ContainerLogStream`
(sse.go:256-258): an empty cluster id becomes the local cluster id. -/
def workflowV4DefaultClusterID (env : Env) (clusterID : String) : String :=
  if clusterID = "" then env.LocalClusterID else clusterID

/-- Namespace switch of `WorkflowTaskV4ContainerLogStream`
(sse.go:259-264): switch on `options.ClusterID` after defaulting. -/
def workflowV4Namespace (env : Env) (clusterID : String) : String :=
  if clusterID = env.LocalClusterID then env.NamespaceDefault
  else env.AttachedClusterNamespace

/-- Namespace switch of `TestJobContainerLogStream` (sse.go:288-293):
switch on `testing.PreTest.ClusterID`. -/
def testJobNamespace (env : Env) (clusterID : String) : String :=
  if clusterID = env.LocalClusterID then env.NamespaceDefault
  else env.AttachedClusterNamespace

/-- The inputs of `label.GetJobLabels` (external helper), carried
opaquely by the selector. -/
structure JobLabel where
  PipelineName : String
  TaskID : Int
  TaskType : String
  ServiceName : String
  PipelineType : String
deriving DecidableEq

/-- A label selector, specified only at its construction boundary:
either the job labels of `label.GetJobLabels(...).AsSelector()` or the
explicit key/value map of `getWorkflowSelector`. -/
inductive Selector
  | jobLabels : JobLabel → Selector
  | labelMap : List (String × String) → Selector
deriving DecidableEq

/-- Model of Go `strings.Replace(s, "_", "-", -1)`. -/
def replaceUnderscoreDash (s : String) : String :=
  String.mk (s.data.map fun c => if c = '_' then '-' else c)

/-- Embedding of `getWorkflowSelector` (sse.go:348-360): job-type and
job-name labels with underscores replaced by dashes, dropping entries
with empty values. -/
def getWorkflowSelector (env : Env) (o : GetContainerOptions) : Selector :=
  Selector.labelMap
    (([(env.JobLabelSTypeKey, replaceUnderscoreDash o.JobType),
       (env.JobLabelNameKey, replaceUnderscoreDash o.JobName)]).filter
      fun kv => decide (kv.2 ≠ ""))

/-- A pod returned by `getter.ListPods`. -/
structure Pod where
  Name : String
deriving DecidableEq

/-- The arguments `waitAndGetLog` hands to
`containerlog.GetContainerLogStream` through `containerLogStream`
(sse.go:336-344). -/
structure OpenLogRequest where
  Namespace : String
  PodName : String
  ContainerName : String
  Follow : Bool
  TailLines : Int
deriving DecidableEq

/-- The external collaborators used by `waitAndGetLog`, modelled at their
interface boundary (spec §6): the per-cluster client factory, the
pod-running wait (taking the effective deadline), the pod lister, and the
log-stream opener, which on success yields the stream's content and
whether its end is a clean `io.EOF`. -/
structure WaitCollaborators where
  getClientset : String → Option Unit
  waitUntilPodRunning : Nat → String → Selector → Bool
  getKubeClient : String → Option Unit
  listPods : String → Selector → Option (List Pod)
  openLogStream : OpenLogRequest → Option (List Char × Bool)

/-- Embedding of the `timeout` constant (sse.go:43-45): `5 * time.Minute`,
in nanoseconds. -/
def timeout : Nat := 5 * 60 * 1000000000

/-- Modelled from the spec: `context.WithTimeout(ctx, timeout)`
(sse.go:305) bounds the pod wait by `now + timeout`, or by the caller's
own deadline when that one is earlier. -/
def podCtxDeadline (callerDeadline now : Nat) : Nat :=
  min callerDeadline (now + timeout)

/-- Outcome of one `waitAndGetLog` session: the open request passed to
the log-stream opener (if one was made), the lines pushed to the sink,
and how many times the read handle was closed. -/
structure SessionOutcome where
  openReq : Option OpenLogRequest
  pushes : List (List Char)
  closes : Nat
deriving DecidableEq

/-- Embedding of `waitAndGetLog` (sse.go:304-346): resolve the clientset
(fatal on error), wait until a matching pod runs under the 5-minute
deadline (fatal on error/timeout), resolve the kube client and list the
matching pods (each fatal on error), then — when at least one pod exists —
stream the first pod's container `options.SubTask` with follow mode `true`
and the requested tail length, under the caller's own context. -/
def waitAndGetLog (doneAt : Nat → Bool) (now callerDeadline : Nat)
    (wc : WaitCollaborators) (selector : Selector)
    (options : GetContainerOptions) : SessionOutcome :=
  match wc.getClientset options.ClusterID with
  | none => { openReq := none, pushes := [], closes := 0 }
  | some _ =>
    if wc.waitUntilPodRunning (podCtxDeadline callerDeadline now)
        options.Namespace selector then
      match wc.getKubeClient options.ClusterID with
      | none => { openReq := none, pushes := [], closes := 0 }
      | some _ =>
        match wc.listPods options.Namespace selector with
        | none => { openReq := none, pushes := [], closes := 0 }
        | some [] => { openReq := none, pushes := [], closes := 0 }
        | some (pod :: _) =>
          let req : OpenLogRequest :=
            { Namespace := options.Namespace, PodName := pod.Name,
              ContainerName := options.SubTask, Follow := true,
              TailLines := options.TailLines }
          let r := containerLogStream doneAt (wc.openLogStream req)
          { openReq := some req, pushes := r.pushes, closes := r.closes }
    else { openReq := none, pushes := [], closes := 0 }

/-- Record returned by `commonrepo.NewTaskColl().FindTask`. -/
structure TaskRecord where
  TaskID : Int
deriving DecidableEq

/-- The `PreBuild` sub-record of a build configuration. -/
structure PreBuild where
  ClusterID : String
deriving DecidableEq

/-- Record returned by `commonrepo.NewBuildColl().Find`; `PreBuild` is a
nilable pointer. -/
structure Build where
  PreBuild : Option PreBuild
deriving DecidableEq

/-- Embedding of `commonrepo.BuildFindOption` as used in sse.go:160-176
(product name, target modules, optional service name; the zero value
stands for an unset field, as in the source). -/
structure BuildFindOption where
  ProductName : String
  Targets : List String
  ServiceName : String
deriving DecidableEq

/-- The `PreTest` sub-record of a test configuration. -/
structure PreTest where
  ClusterID : String
deriving DecidableEq

/-- Record returned by `commonrepo.NewTestingColl().Find`; `PreTest` is a
nilable pointer. -/
structure Testing where
  PreTest : Option PreTest
deriving DecidableEq

/-- A job entry of a workflow-v4 task.  `SpecClusterID` models the result
of decoding `job.Spec` through `commonmodels.IToi` into the job-type's
spec shape and projecting `Properties.ClusterID`: `none` is a decode
failure, `some cid` a successful decode. -/
structure Job where
  Name : String
  K8sJobName : String
  JobType : String
  SpecClusterID : Option String
deriving DecidableEq

/-- A stage of a workflow-v4 task. -/
structure Stage where
  Jobs : List Job
deriving DecidableEq

/-- Record returned by `commonrepo.NewworkflowTaskv4Coll().Find`. -/
structure WorkflowTask where
  Stages : List Stage
deriving DecidableEq

/-- Observable outcome of one entry-point call: `nilReturn` is the
immediate return of the `options == nil` guard (nothing touched, nothing
pushed); `nilPanic` is a nil-pointer dereference of `options`; `aborted`
is an early logged return before any pod search; `ran s` means
`waitAndGetLog` ran with session outcome `s`. -/
inductive EntryOutcome
  | nilReturn
  | nilPanic
  | aborted
  | ran : SessionOutcome → EntryOutcome
deriving DecidableEq

/-- Embedding of `TaskContainerLogStream` (sse.go:142-208): nil guard,
service-name resolution, the environment-log branch (synthesizes the
pipeline name and adopts a found task id, lookup failure non-fatal), the
build-log branch (build lookup with a product-free retry, both-miss
fatal; a non-empty pre-build cluster id sets the cluster and the
namespace through the local/attached switch), the sub-task default, and
the shared pod wait and stream. -/
def TaskContainerLogStream (env : Env) (doneAt : Nat → Bool)
    (now callerDeadline : Nat)
    (findTask : String → String → Option TaskRecord)
    (findBuild : BuildFindOption → Option Build)
    (wc : WaitCollaborators)
    (options : Option GetContainerOptions) : EntryOutcome :=
  match options with
  | none => EntryOutcome.nilReturn
  | some o =>
    let p := parseServiceName o.ServiceName.data o.ServiceModule.data
    let serviceName := String.mk p.1
    let serviceModule := String.mk p.2
    let step1 : Option GetContainerOptions :=
      if o.EnvName ≠ "" ∧ o.ProductName ≠ "" ∧ o.PipelineName = "" then
        let pn := serviceName ++ "-" ++ o.EnvName ++ "-" ++ "job"
        let o1 := { o with PipelineName := pn }
        match findTask pn env.ServiceType with
        | some t => some { o1 with TaskID := t.TaskID }
        | none => some o1
      else if o.ProductName ≠ "" then
        let found :=
          match findBuild { ProductName := o.ProductName,
                            Targets := [serviceModule],
                            ServiceName := if serviceName ≠ "" then serviceName else "" } with
          | some b => some b
          | none =>
            findBuild { ProductName := "", Targets := [serviceModule],
                        ServiceName := if serviceName ≠ "" then serviceName else "" }
        match found with
        | none => none
        | some build =>
          match build.PreBuild with
          | some pb =>
            if pb.ClusterID ≠ "" then
              some { o with ClusterID := pb.ClusterID,
                            Namespace := taskBuildNamespace env pb.ClusterID }
            else some o
          | none => some o
      else some o
    match step1 with
    | none => EntryOutcome.aborted
    | some o2 =>
      let o3 := if o2.SubTask = "" then { o2 with SubTask := env.TaskBuild } else o2
      let sel := Selector.jobLabels
        { PipelineName := o3.PipelineName, TaskID := o3.TaskID,
          TaskType := o3.SubTask, ServiceName := o3.ServiceName,
          PipelineType := o3.PipelineType }
      EntryOutcome.ran (waitAndGetLog doneAt now callerDeadline wc sel o3)

/-- The freestyle-spec family of job types (sse.go:228-238), which all
fall through to the same spec decoding. -/
def wfv4IsFreestyleFamily (env : Env) (jt : String) : Bool :=
  jt == env.JobZadigBuild || jt == env.JobFreestyle || jt == env.JobZadigTesting
    || jt == env.JobZadigScanning || jt == env.JobZadigDistributeImage
    || jt == env.JobBuild

/-- Cluster-id adoption, defaulting and namespace switch applied to the
matching job (sse.go:244, 251, 256-264). -/
def wfv4AssignClusterAndNamespace (env : Env)
    (o : GetContainerOptions) : GetContainerOptions :=
  let cid := workflowV4DefaultClusterID env o.ClusterID
  { o with ClusterID := cid, Namespace := workflowV4Namespace env cid }

/-- Processing of the job matching the requested sub-task
(sse.go:225-265): adopt the job's k8s name and type, decode its spec by
job type (decode failure fatal, unsupported type fatal), then default the
cluster id and assign the namespace. -/
def wfv4ProcessJob (env : Env) (o : GetContainerOptions)
    (job : Job) : Option GetContainerOptions :=
  let o1 := { o with JobName := job.K8sJobName, JobType := job.JobType }
  if wfv4IsFreestyleFamily env job.JobType then
    match job.SpecClusterID with
    | none => none
    | some cid => some (wfv4AssignClusterAndNamespace env { o1 with ClusterID := cid })
  else if job.JobType == env.JobPlugin then
    match job.SpecClusterID with
    | none => none
    | some cid => some (wfv4AssignClusterAndNamespace env { o1 with ClusterID := cid })
  else none

/-- One stage of the scan (sse.go:220-266): jobs whose name differs from
the requested sub-task are skipped; the first matching job is processed
and the inner loop breaks. -/
def wfv4ProcessStage (env : Env) (subTask : String)
    (o : GetContainerOptions) (stage : Stage) : Option GetContainerOptions :=
  match stage.Jobs.find? (fun j => j.Name == subTask) with
  | none => some o
  | some job => wfv4ProcessJob env o job

/-- The outer stage loop (sse.go:220-267); the source's `break` leaves
only the inner job loop, so remaining stages are still scanned. -/
def wfv4ProcessStages (env : Env) (subTask : String) :
    GetContainerOptions → List Stage → Option GetContainerOptions
  | o, [] => some o
  | o, st :: rest =>
    match wfv4ProcessStage env subTask o st with
    | none => none
    | some o2 => wfv4ProcessStages env subTask o2 rest

/-- Embedding of `WorkflowTaskV4ContainerLogStream` (sse.go:210-271):
nil guard, workflow task lookup (fatal on miss), stage/job scan, then the
shared pod wait and stream with `getWorkflowSelector`. -/
def WorkflowTaskV4ContainerLogStream (env : Env) (doneAt : Nat → Bool)
    (now callerDeadline : Nat)
    (findWorkflowTask : String → Int → Option WorkflowTask)
    (wc : WaitCollaborators)
    (options : Option GetContainerOptions) : EntryOutcome :=
  match options with
  | none => EntryOutcome.nilReturn
  | some o =>
    match findWorkflowTask o.PipelineName o.TaskID with
    | none => EntryOutcome.aborted
    | some task =>
      match wfv4ProcessStages env o.SubTask o task.Stages with
      | none => EntryOutcome.aborted
      | some o2 =>
        let sel := getWorkflowSelector env o2
        EntryOutcome.ran (waitAndGetLog doneAt now callerDeadline wc sel o2)

/-- Embedding of `TestJobContainerLogStream` (sse.go:273-297): no nil
guard — the first statement dereferences `options`, so a nil options
pointer panics.  Otherwise: force the sub-task to the testing task type,
build the job-label selector, look up the test config under the derived
test name (errors ignored), adopt a non-empty pre-test cluster id with
the local/attached namespace switch, then the shared pod wait and
stream. -/
def TestJobContainerLogStream (env : Env) (doneAt : Nat → Bool)
    (now callerDeadline : Nat)
    (findTesting : String → String → Option Testing)
    (wc : WaitCollaborators)
    (options : Option GetContainerOptions) : EntryOutcome :=
  match options with
  | none => EntryOutcome.nilPanic
  | some o0 =>
    let o := { o0 with SubTask := env.TaskTestingV2 }
    let sel := Selector.jobLabels
      { PipelineName := o.PipelineName, TaskID := o.TaskID,
        TaskType := o.SubTask, ServiceName := o.ServiceName,
        PipelineType := o.PipelineType }
    let o2 :=
      match findTesting (String.mk (getTestName o.ServiceName.data)) "" with
      | some t =>
        match t.PreTest with
        | some pt =>
          if pt.ClusterID ≠ "" then
            { o with ClusterID := pt.ClusterID,
                     Namespace := testJobNamespace env pt.ClusterID }
          else o
        | none => o
      | none => o
    EntryOutcome.ran (waitAndGetLog doneAt now callerDeadline wc sel o2)

/-- Claim C4: when the pod wait fails (in particular when no matching pod
ever reaches the running phase by the effective deadline),
`waitAndGetLog` returns without ever invoking the log-stream opener and
with zero lines pushed to the sink; and the effective deadline handed to
the wait never exceeds `now + timeout` (the fixed 5 minutes) nor the
caller's own deadline. -/
theorem claim_C4 (doneAt : Nat → Bool) (now dl : Nat)
    (wc : WaitCollaborators) (sel : Selector) (o : GetContainerOptions)
    (h : wc.waitUntilPodRunning (podCtxDeadline dl now) o.Namespace sel = false) :
    (waitAndGetLog doneAt now dl wc sel o).openReq = none
      ∧ (waitAndGetLog doneAt now dl wc sel o).pushes = []
      ∧ podCtxDeadline dl now ≤ now + timeout
      ∧ podCtxDeadline dl now ≤ dl := by
  refine ⟨?_, ?_, Nat.min_le_right _ _, Nat.min_le_left _ _⟩ <;>
    · unfold waitAndGetLog
      cases hg : wc.getClientset o.ClusterID with
      | none => simp
      | some u => simp [h]

/-- Wait collaborator fixture whose pod wait always fails. -/
def wcWaitFail : WaitCollaborators :=
  { getClientset := fun _ => some (),
    waitUntilPodRunning := fun _ _ _ => false,
    getKubeClient := fun _ => some (),
    listPods := fun _ _ => some [],
    openLogStream := fun _ => none }

/-- Concrete request options fixture. -/
def optsW : GetContainerOptions :=
  { Namespace := "ns", PipelineName := "p", SubTask := "ctn", JobName := "",
    JobType := "", TailLines := 10, TaskID := 1, PipelineType := "",
    ServiceName := "", ServiceModule := "", TestName := "", EnvName := "",
    ProductName := "", ClusterID := "" }

/-- Concrete selector fixture. -/
def selW : Selector := Selector.labelMap []

/-- Witness for C4: a concrete session whose pod wait fails opens no
stream and pushes nothing, under a deadline within the 5-minute bound. -/
theorem claim_C4_witness :
    (wcWaitFail.waitUntilPodRunning (podCtxDeadline 1000000000000 0)
        optsW.Namespace selW = false)
      ∧ (waitAndGetLog neverDone 0 1000000000000 wcWaitFail selW optsW).openReq = none
      ∧ (waitAndGetLog neverDone 0 1000000000000 wcWaitFail selW optsW).pushes = []
      ∧ podCtxDeadline 1000000000000 0 ≤ 0 + timeout
      ∧ podCtxDeadline 1000000000000 0 ≤ 1000000000000 := by
  have h := claim_C4 neverDone 0 1000000000000 wcWaitFail selW optsW rfl
  exact ⟨rfl, h.1, h.2.1, h.2.2.1, h.2.2.2⟩

/-- Claim C5: the namespace switch is the same pure function of the
cluster id at every site that assigns a namespace (build-log branch,
workflow-v4, test-job; the environment-log branch assigns none): the
local cluster id maps to the default configured namespace, any other
cluster id to the fixed attached-cluster namespace; and the workflow-v4
variant first defaults an empty cluster id to the local cluster id, so an
empty id also maps to the default namespace. -/
theorem claim_C5 (env : Env) (cid : String) :
    taskBuildNamespace env cid = workflowV4Namespace env cid
      ∧ taskBuildNamespace env cid = testJobNamespace env cid
      ∧ taskBuildNamespace env env.LocalClusterID = env.NamespaceDefault
      ∧ (cid ≠ env.LocalClusterID →
          taskBuildNamespace env cid = env.AttachedClusterNamespace)
      ∧ workflowV4Namespace env (workflowV4DefaultClusterID env "")
          = env.NamespaceDefault := by
  refine ⟨rfl, rfl, ?_, ?_, ?_⟩
  · simp [taskBuildNamespace]
  · intro h
    simp [taskBuildNamespace, h]
  · simp [workflowV4Namespace, workflowV4DefaultClusterID]

/-- Concrete environment fixture (representative distinct constants). -/
def envW : Env :=
  { LocalClusterID := "local", NamespaceDefault := "zadig-ns",
    AttachedClusterNamespace := "koderover-agent", ServiceType := "service",
    TaskBuild := "buildv2", TaskTestingV2 := "testingv2",
    JobZadigBuild := "zadig-build", JobFreestyle := "freestyle",
    JobZadigTesting := "zadig-test", JobZadigScanning := "zadig-scanning",
    JobZadigDistributeImage := "zadig-distribute-image", JobBuild := "build",
    JobPlugin := "plugin", JobLabelSTypeKey := "s-type",
    JobLabelNameKey := "s-name" }

/-- Witness for C5 at a concrete environment and a non-local cluster id. -/
theorem claim_C5_witness :
    ("cluster-b" ≠ envW.LocalClusterID)
      ∧ taskBuildNamespace envW "cluster-b" = envW.AttachedClusterNamespace
      ∧ taskBuildNamespace envW "cluster-b" = workflowV4Namespace envW "cluster-b"
      ∧ taskBuildNamespace envW "cluster-b" = testJobNamespace envW "cluster-b"
      ∧ taskBuildNamespace envW envW.LocalClusterID = envW.NamespaceDefault
      ∧ workflowV4Namespace envW (workflowV4DefaultClusterID envW "")
          = envW.NamespaceDefault := by
  have h := claim_C5 envW "cluster-b"
  exact ⟨by decide, h.2.2.2.1 (by decide), h.1, h.2.1, h.2.2.1, h.2.2.2.2⟩

/-- Claim C9: called with a nil options pointer, `TaskContainerLogStream`
and `WorkflowTaskV4ContainerLogStream` return immediately through their
guard — no collaborator is consulted, nothing is pushed — whereas
`TestJobContainerLogStream` has no guard and dereferences the nil
pointer; a non-nil options pointer is thus a precondition of the test-job
entry point. -/
theorem claim_C9 (env : Env) (doneAt : Nat → Bool) (now dl : Nat)
    (findTask : String → String → Option TaskRecord)
    (findBuild : BuildFindOption → Option Build)
    (findWorkflowTask : String → Int → Option WorkflowTask)
    (findTesting : String → String → Option Testing)
    (wc : WaitCollaborators) :
    TaskContainerLogStream env doneAt now dl findTask findBuild wc none
        = EntryOutcome.nilReturn
      ∧ WorkflowTaskV4ContainerLogStream env doneAt now dl findWorkflowTask wc none
        = EntryOutcome.nilReturn
      ∧ TestJobContainerLogStream env doneAt now dl findTesting wc none
        = EntryOutcome.nilPanic :=
  ⟨rfl, rfl, rfl⟩

/-- Claim C10: whenever `waitAndGetLog` makes an open request, that
request carries follow mode `true` unconditionally and the container name
equal to the request options' `SubTask` field (the options type has no
follow flag a caller could set). -/
theorem claim_C10 (doneAt : Nat → Bool) (now dl : Nat)
    (wc : WaitCollaborators) (sel : Selector) (o : GetContainerOptions)
    (req : OpenLogRequest)
    (h : (waitAndGetLog doneAt now dl wc sel o).openReq = some req) :
    req.Follow = true ∧ req.ContainerName = o.SubTask := by
  unfold waitAndGetLog at h
  cases hg : wc.getClientset o.ClusterID with
  | none => rw [hg] at h; simp at h
  | some u =>
    rw [hg] at h
    by_cases hw : wc.waitUntilPodRunning (podCtxDeadline dl now) o.Namespace sel = true
    · simp only [hw, if_true] at h
      cases hk : wc.getKubeClient o.ClusterID with
      | none => rw [hk] at h; simp at h
      | some v =>
        rw [hk] at h
        cases hp : wc.listPods o.Namespace sel with
        | none => rw [hp] at h; simp at h
        | some pods =>
          rw [hp] at h
          cases pods with
          | nil => simp at h
          | cons pod rest =>
            simp only [Option.some.injEq] at h
            cases h
            exact ⟨rfl, rfl⟩
    · simp only [hw, if_false] at h
      simp at h

/-- Wait collaborator fixture that reaches the open. -/
def wcOpen : WaitCollaborators :=
  { getClientset := fun _ => some (),
    waitUntilPodRunning := fun _ _ _ => true,
    getKubeClient := fun _ => some (),
    listPods := fun _ _ => some [{ Name := "pod-1" }],
    openLogStream := fun _ => some ([], true) }

/-- The open request produced by the `wcOpen` fixture. -/
def reqW : OpenLogRequest :=
  { Namespace := "ns", PodName := "pod-1", ContainerName := "ctn",
    Follow := true, TailLines := 10 }

/-- Witness for C10: a concrete session that opens does so with follow
mode true and the sub-task as container name. -/
theorem claim_C10_witness :
    ((waitAndGetLog neverDone 0 1000 wcOpen selW optsW).openReq = some reqW)
      ∧ reqW.Follow = true ∧ reqW.ContainerName = optsW.SubTask := by
  refine ⟨rfl, ?_⟩
  exact claim_C10 neverDone 0 1000 wcOpen selW optsW reqW rfl
